import Mathlib

/-!
Verification development for the realtime fan-out layer of the andmedia
social-feed application.

Embedded source files:
- `server.js` (the Socket.IO connection handler): modelled by `serverHandle`,
  `broadcastExcept` and `deliveries`.
- `components/Feed.tsx` (`handleNewPost`, `handlePostDeleted`): modelled by
  the functions of the same names.
- `components/PostItem.tsx` (`handleLikeUpdate`, `handleCommentAdded`):
  modelled by the functions of the same names.

JavaScript runtime values are modelled by `JSVal`; numbers are modelled as
integers (no claim depends on float behaviour).
-/

/-- Model of a JavaScript runtime value, as far as the server handlers in
`server.js` inspect payloads: the handlers only use truthiness tests, field
access, `Array.isArray`, and string interpolation. -/
inductive JSVal : Type where
  | undefined : JSVal
  | null : JSVal
  | bool : Bool → JSVal
  | num : Int → JSVal
  | str : String → JSVal
  | arr : List JSVal → JSVal
  | obj : List (String × JSVal) → JSVal

/-- JavaScript truthiness: `undefined`, `null`, `false`, `0` and the empty
string are falsy; every array and object is truthy. -/
def truthy : JSVal → Bool
  | JSVal.undefined => false
  | JSVal.null => false
  | JSVal.bool b => b
  | JSVal.num n => n != 0
  | JSVal.str s => s ≠ ""
  | JSVal.arr _ => true
  | JSVal.obj _ => true

/-- Model of `Array.isArray`. -/
def isArray : JSVal → Bool
  | JSVal.arr _ => true
  | _ => false

/-- Property access `v[k]`. Missing fields and access on a non-object yield
`undefined`. The server only dereferences values it has already checked for
truthiness, or uses optional chaining (`commentData.comment?._id`), so the
total model with `undefined` on non-objects matches every access site. -/
def getField : JSVal → String → JSVal
  | JSVal.obj fields, k =>
      match fields.find? (fun f => f.1 = k) with
      | some f => f.2
      | none => JSVal.undefined
  | _, _ => JSVal.undefined

mutual
/-- JavaScript default string coercion, as used by the template literal in
the `hello` handler. -/
def jsToString : JSVal → String
  | JSVal.undefined => "undefined"
  | JSVal.null => "null"
  | JSVal.bool b => cond b "true" "false"
  | JSVal.num n => toString n
  | JSVal.str s => s
  | JSVal.arr xs => String.intercalate "," (jsArrElems xs)
  | JSVal.obj _ => "[object Object]"

/-- Array elements under `Array.prototype.toString`: `null` and `undefined`
render as the empty string. -/
def jsArrElems : List JSVal → List String
  | [] => []
  | JSVal.null :: vs => "" :: jsArrElems vs
  | JSVal.undefined :: vs => "" :: jsArrElems vs
  | v :: vs => jsToString v :: jsArrElems vs
end

/-- One outbound emission performed by the connection handler in `server.js`:
either `socket.emit` (unicast back to the origin connection) or
`socket.broadcast.emit` (to every other connected socket). -/
inductive Emission : Type where
  | toOrigin : String → JSVal → Emission
  | broadcastExceptOrigin : String → JSVal → Emission

/-- The `io.on("connection")` handler of `server.js`, as a map from an
inbound event name and payload to the list of emissions it performs.
`disconnect` and `connect_error` only log, and an event with no registered
listener (in particular `delete_post_from_client`) is ignored, so both map
to `[]`. -/
def serverHandle (ev : String) (payload : JSVal) : List Emission :=
  match ev with
  | "hello" =>
      [Emission.toOrigin "helloFromServer"
        (JSVal.str ("Server received your message: " ++ jsToString payload))]
  | "like_updated_from_client" =>
      if truthy payload && truthy (getField payload "postId")
          && isArray (getField payload "likes") then
        [Emission.broadcastExceptOrigin "like_updated" payload]
      else []
  | "new_post_from_client" =>
      if truthy payload && truthy (getField payload "_id")
          && truthy (getField payload "author") then
        [Emission.broadcastExceptOrigin "post_created" payload]
      else []
  | "new_comment_from_client" =>
      if truthy payload && truthy (getField payload "postId")
          && truthy (getField (getField payload "comment") "_id") then
        [Emission.broadcastExceptOrigin "comment_added" payload]
      else []
  | _ => []

/-- The validation predicate each broadcast-producing listener applies to its
payload, named by inbound event; events outside the contract validate to
`false`. -/
def eventValid (ev : String) (payload : JSVal) : Bool :=
  match ev with
  | "like_updated_from_client" =>
      truthy payload && truthy (getField payload "postId")
        && isArray (getField payload "likes")
  | "new_post_from_client" =>
      truthy payload && truthy (getField payload "_id")
        && truthy (getField payload "author")
  | "new_comment_from_client" =>
      truthy payload && truthy (getField payload "postId")
        && truthy (getField (getField payload "comment") "_id")
  | _ => false

/-- A single delivery of a named event with payload to one connection. -/
structure Delivery : Type where
  recipient : String
  event : String
  payload : JSVal

/-- `socket.broadcast.emit`: deliver the envelope to every registered
connection except the origin. The registry is the list of connected socket
ids. -/
def broadcastExcept (conns : List String) (origin : String)
    (ev : String) (p : JSVal) : List Delivery :=
  (conns.filter (fun c => c ≠ origin)).map (fun c => Delivery.mk c ev p)

/-- All deliveries caused by one inbound event from `origin`, given the
registry `conns`. -/
def deliveries (conns : List String) (origin : String)
    (ev : String) (p : JSVal) : List Delivery :=
  (serverHandle ev p).flatMap (fun em =>
    match em with
    | Emission.toOrigin e pl => [Delivery.mk origin e pl]
    | Emission.broadcastExceptOrigin e pl => broadcastExcept conns origin e pl)

/-- One inbound event raised by a connection. -/
structure Inbound : Type where
  origin : String
  event : String
  payload : JSVal

/-- The server processes inbound events sequentially; the delivery log is the
concatenation of each event's deliveries, in processing order. -/
def runTrace (conns : List String) (trace : List Inbound) : List Delivery :=
  trace.flatMap (fun t => deliveries conns t.origin t.event t.payload)

/-- The sub-log of deliveries addressed to connection `b`, in order. -/
def logFor (b : String) (ds : List Delivery) : List Delivery :=
  ds.filter (fun d => d.recipient = b)

/-- A populated user as the client components receive it
(`components/PostItem.tsx`). -/
structure PopulatedUser : Type where
  _id : String
  username : String
  profilePicture : Option String
deriving DecidableEq

/-- A comment with populated user (`PopulatedComment` in
`components/PostItem.tsx`; text and creation time from `IComment` in
`models/Post.ts`). -/
structure PopulatedComment : Type where
  _id : String
  user : PopulatedUser
  text : String
  createdAt : String
deriving DecidableEq

/-- A post as held in the feed state (`PopulatedPost` in
`components/Feed.tsx`; content fields from `IPost` in `models/Post.ts`). -/
structure PopulatedPost : Type where
  _id : String
  author : PopulatedUser
  content : String
  imageUrl : Option String
  likes : List String
  comments : List PopulatedComment
  createdAt : String
deriving DecidableEq

/-- `handleNewPost` in `components/Feed.tsx`: the state update applied to
`prevPosts` on a `post_created` event; a post whose id is already present is
skipped, otherwise the new post is prepended. -/
def handleNewPost (newPost : PopulatedPost) (prevPosts : List PopulatedPost) :
    List PopulatedPost :=
  if prevPosts.any (fun post => post._id == newPost._id) then prevPosts
  else newPost :: prevPosts

/-- The `post_deleted` payload as typed in `components/Feed.tsx`. -/
structure PostDeletedData : Type where
  postId : String
deriving DecidableEq

/-- `handlePostDeleted` in `components/Feed.tsx`: on a truthy payload with a
truthy `postId` (JavaScript truthiness, so the empty string fails the guard)
the posts whose id equals `postId` are filtered out; otherwise the event is
only logged and the state is unchanged. A missing or null payload is
modelled by `none`. -/
def handlePostDeleted (data : Option PostDeletedData)
    (prevPosts : List PopulatedPost) : List PopulatedPost :=
  match data with
  | some d =>
      if d.postId ≠ "" then
        prevPosts.filter (fun post => post._id != d.postId)
      else prevPosts
  | none => prevPosts

/-- The `like_updated` payload as typed in `components/PostItem.tsx`. -/
structure LikeUpdatedData : Type where
  postId : String
  likes : List String
deriving DecidableEq

/-- The like-related state of one `PostItem`: the `likeCount` and `isLiked`
state hooks. -/
structure LikeState : Type where
  likeCount : Nat
  isLiked : Bool
deriving DecidableEq

/-- `handleLikeUpdate` in `components/PostItem.tsx`: on an event whose
`postId` equals this item's post id, the like count becomes the length of
the received likes list and `isLiked` becomes membership of the current
user id in it (`currentUserId ? data.likes.includes(currentUserId) : false`,
a truthiness test, so an empty-string user id yields `false`); any other
event leaves the state unchanged. -/
def handleLikeUpdate (postIdOfItem : String) (currentUserId : Option String)
    (data : LikeUpdatedData) (st : LikeState) : LikeState :=
  if data.postId = postIdOfItem then
    { likeCount := data.likes.length
      isLiked :=
        match currentUserId with
        | some uid => if uid ≠ "" then data.likes.contains uid else false
        | none => false }
  else st

/-- The `comment_added` payload as typed in `components/PostItem.tsx`. -/
structure CommentAddedData : Type where
  postId : String
  comment : PopulatedComment
deriving DecidableEq

/-- `handleCommentAdded` in `components/PostItem.tsx`: on an event for this
item's post id, a comment whose id is already present is skipped, otherwise
the comment is prepended; events for other posts change nothing. -/
def handleCommentAdded (postIdOfItem : String) (data : CommentAddedData)
    (prevComments : List PopulatedComment) : List PopulatedComment :=
  if data.postId = postIdOfItem then
    if prevComments.any (fun c => c._id == data.comment._id) then prevComments
    else data.comment :: prevComments
  else prevComments

/-! Equation lemmas for `serverHandle` at each contract event name. -/

theorem serverHandle_hello (p : JSVal) :
    serverHandle "hello" p =
      [Emission.toOrigin "helloFromServer"
        (JSVal.str ("Server received your message: " ++ jsToString p))] := rfl

theorem serverHandle_like (p : JSVal) :
    serverHandle "like_updated_from_client" p =
      if truthy p && truthy (getField p "postId")
          && isArray (getField p "likes") then
        [Emission.broadcastExceptOrigin "like_updated" p]
      else [] := rfl

theorem serverHandle_newPost (p : JSVal) :
    serverHandle "new_post_from_client" p =
      if truthy p && truthy (getField p "_id")
          && truthy (getField p "author") then
        [Emission.broadcastExceptOrigin "post_created" p]
      else [] := rfl

theorem serverHandle_newComment (p : JSVal) :
    serverHandle "new_comment_from_client" p =
      if truthy p && truthy (getField p "postId")
          && truthy (getField (getField p "comment") "_id") then
        [Emission.broadcastExceptOrigin "comment_added" p]
      else [] := rfl

theorem serverHandle_deletePost (p : JSVal) :
    serverHandle "delete_post_from_client" p = [] := rfl

theorem eventValid_like (p : JSVal) :
    eventValid "like_updated_from_client" p =
      (truthy p && truthy (getField p "postId")
        && isArray (getField p "likes")) := rfl

theorem eventValid_newPost (p : JSVal) :
    eventValid "new_post_from_client" p =
      (truthy p && truthy (getField p "_id")
        && truthy (getField p "author")) := rfl

theorem eventValid_newComment (p : JSVal) :
    eventValid "new_comment_from_client" p =
      (truthy p && truthy (getField p "postId")
        && truthy (getField (getField p "comment") "_id")) := rfl

/-! Helper lemmas on lists of connection ids. -/

theorem filter_ne_of_not_mem (l : List String) (a : String) (h : a ∉ l) :
    l.filter (fun c => c ≠ a) = l := by
  induction l with
  | nil => rfl
  | cons x t ih =>
    simp only [List.mem_cons, not_or] at h
    obtain ⟨hxa, hta⟩ := h
    rw [List.filter_cons_of_pos (by simp [Ne.symm hxa]), ih hta]

theorem length_filter_ne (l : List String) (a : String)
    (hnd : l.Nodup) (hmem : a ∈ l) :
    (l.filter (fun c => c ≠ a)).length = l.length - 1 := by
  induction l with
  | nil => cases hmem
  | cons x t ih =>
    rw [List.nodup_cons] at hnd
    obtain ⟨hxt, hnt⟩ := hnd
    by_cases hx : x = a
    · subst hx
      rw [List.filter_cons_of_neg (by simp), filter_ne_of_not_mem t x hxt]
      simp
    · have hat : a ∈ t := by
        rcases List.mem_cons.mp hmem with h | h
        · exact absurd h.symm hx
        · exact h
      have hpos : 0 < t.length := List.length_pos_of_mem hat
      rw [List.filter_cons_of_pos (by simp [hx]), List.length_cons,
        ih hnt hat, List.length_cons]
      omega

theorem filter_eq_singleton (l : List String) (b : String)
    (hnd : l.Nodup) (hmem : b ∈ l) :
    l.filter (fun c => c = b) = [b] := by
  induction l with
  | nil => cases hmem
  | cons x t ih =>
    rw [List.nodup_cons] at hnd
    obtain ⟨hxt, hnt⟩ := hnd
    by_cases hx : x = b
    · subst hx
      have hnil : t.filter (fun c => c = x) = [] := by
        rw [List.filter_eq_nil_iff]
        intro c hc
        simp only [decide_eq_true_eq]
        intro hcx
        exact hxt (hcx ▸ hc)
      rw [List.filter_cons_of_pos (by simp), hnil]
    · have hbt : b ∈ t := by
        rcases List.mem_cons.mp hmem with h | h
        · exact absurd h.symm hx
        · exact h
      rw [List.filter_cons_of_neg (by simp [hx]), ih hnt hbt]

theorem deliveries_broadcast (conns : List String) (origin ev : String)
    (p : JSVal) (e : String) (pl : JSVal)
    (h : serverHandle ev p = [Emission.broadcastExceptOrigin e pl]) :
    deliveries conns origin ev p = broadcastExcept conns origin e pl := by
  simp [deliveries, h]

theorem deliveries_of_handle_nil (conns : List String) (origin ev : String)
    (p : JSVal) (h : serverHandle ev p = []) :
    deliveries conns origin ev p = [] := by
  simp [deliveries, h]

/-- C1: a validated inbound event from `origin` is delivered to exactly the
`N − 1` registered connections other than `origin`, each delivery carries
the same outbound event name and payload, no delivery goes to `origin`, and
no recipient is delivered to twice. -/
theorem broadcast_reaches_exactly_others (conns : List String)
    (origin ev : String) (p : JSVal) (e : String) (pl : JSVal)
    (hnd : conns.Nodup) (hmem : origin ∈ conns)
    (hb : serverHandle ev p = [Emission.broadcastExceptOrigin e pl]) :
    (deliveries conns origin ev p).length = conns.length - 1 ∧
    (∀ d ∈ deliveries conns origin ev p,
        d.recipient ≠ origin ∧ d.event = e ∧ d.payload = pl) ∧
    (∀ c ∈ conns, c ≠ origin →
        Delivery.mk c e pl ∈ deliveries conns origin ev p) ∧
    ((deliveries conns origin ev p).map Delivery.recipient).Nodup := by
  rw [deliveries_broadcast conns origin ev p e pl hb]
  refine ⟨?_, ?_, ?_, ?_⟩
  · simp only [broadcastExcept, List.length_map]
    exact length_filter_ne conns origin hnd hmem
  · intro d hd
    simp only [broadcastExcept, List.mem_map, List.mem_filter,
      decide_eq_true_eq] at hd
    obtain ⟨c, ⟨_, hne⟩, rfl⟩ := hd
    exact ⟨hne, rfl, rfl⟩
  · intro c hc hne
    simp only [broadcastExcept, List.mem_map, List.mem_filter,
      decide_eq_true_eq]
    exact ⟨c, ⟨hc, hne⟩, rfl⟩
  · simp only [broadcastExcept, List.map_map]
    have : (Delivery.recipient ∘ fun c => Delivery.mk c e pl) = id := rfl
    rw [this, List.map_id]
    exact hnd.filter _

theorem broadcast_reaches_exactly_others_witness :
    (deliveries ["A", "B", "C"] "A" "like_updated_from_client"
        (JSVal.obj [("postId", JSVal.str "p1"),
          ("likes", JSVal.arr [JSVal.str "u1", JSVal.str "u2"])])).length =
      (["A", "B", "C"] : List String).length - 1 ∧
    (∀ d ∈ deliveries ["A", "B", "C"] "A" "like_updated_from_client"
        (JSVal.obj [("postId", JSVal.str "p1"),
          ("likes", JSVal.arr [JSVal.str "u1", JSVal.str "u2"])]),
        d.recipient ≠ "A" ∧ d.event = "like_updated" ∧
        d.payload = JSVal.obj [("postId", JSVal.str "p1"),
          ("likes", JSVal.arr [JSVal.str "u1", JSVal.str "u2"])]) ∧
    (∀ c ∈ (["A", "B", "C"] : List String), c ≠ "A" →
        Delivery.mk c "like_updated"
            (JSVal.obj [("postId", JSVal.str "p1"),
              ("likes", JSVal.arr [JSVal.str "u1", JSVal.str "u2"])]) ∈
          deliveries ["A", "B", "C"] "A" "like_updated_from_client"
            (JSVal.obj [("postId", JSVal.str "p1"),
              ("likes", JSVal.arr [JSVal.str "u1", JSVal.str "u2"])])) ∧
    ((deliveries ["A", "B", "C"] "A" "like_updated_from_client"
        (JSVal.obj [("postId", JSVal.str "p1"),
          ("likes", JSVal.arr [JSVal.str "u1", JSVal.str "u2"])])).map
      Delivery.recipient).Nodup :=
  broadcast_reaches_exactly_others ["A", "B", "C"] "A"
    "like_updated_from_client" _ "like_updated" _
    (by decide) (by decide) rfl

/-- C2 (code bug evaluation): `server.js` registers no listener for
`delete_post_from_client`, so the event produces no emissions; in the
scenario with registry `{B, C}` and origin `B`, the remaining connection `C`
receives no `post_deleted` delivery, contrary to the contract table and
end-to-end scenario 3 of the spec. -/
theorem delete_post_not_relayed :
    serverHandle "delete_post_from_client"
        (JSVal.obj [("postId", JSVal.str "p2")]) = [] ∧
    deliveries ["B", "C"] "B" "delete_post_from_client"
        (JSVal.obj [("postId", JSVal.str "p2")]) = [] := ⟨rfl, rfl⟩

/-- C3: an inbound event of any of the three broadcast-producing types whose
payload fails that type's validation produces no emission at all — no
broadcast, no reply to the sender — and the (total) router function returns
normally. -/
theorem malformed_payload_dropped (conns : List String) (origin ev : String)
    (p : JSVal)
    (hev : ev = "like_updated_from_client" ∨ ev = "new_post_from_client" ∨
      ev = "new_comment_from_client")
    (hbad : eventValid ev p = false) :
    serverHandle ev p = [] ∧ deliveries conns origin ev p = [] := by
  have h : serverHandle ev p = [] := by
    rcases hev with h | h | h <;> subst h
    · have hc : (truthy p && truthy (getField p "postId")
          && isArray (getField p "likes")) = false := by
        rw [← eventValid_like]; exact hbad
      rw [serverHandle_like]
      simp [hc]
    · have hc : (truthy p && truthy (getField p "_id")
          && truthy (getField p "author")) = false := by
        rw [← eventValid_newPost]; exact hbad
      rw [serverHandle_newPost]
      simp [hc]
    · have hc : (truthy p && truthy (getField p "postId")
          && truthy (getField (getField p "comment") "_id")) = false := by
        rw [← eventValid_newComment]; exact hbad
      rw [serverHandle_newComment]
      simp [hc]
  exact ⟨h, deliveries_of_handle_nil conns origin ev p h⟩

theorem malformed_payload_dropped_witness :
    serverHandle "like_updated_from_client"
        (JSVal.obj [("likes", JSVal.arr [])]) = [] ∧
    deliveries ["A", "B"] "A" "like_updated_from_client"
        (JSVal.obj [("likes", JSVal.arr [])]) = [] :=
  malformed_payload_dropped ["A", "B"] "A" _ _ (Or.inl rfl) rfl

/-- C4 counterexample: the listener for `like_updated_from_client` checks
only truthiness of `postId` and `Array.isArray` of `likes`; a likes array
containing the number 42, and a numeric `postId`, both pass validation and
are broadcast, refuting the claim that such payloads are rejected. -/
theorem like_type_check_counterexample :
    serverHandle "like_updated_from_client"
        (JSVal.obj [("postId", JSVal.str "p1"),
          ("likes", JSVal.arr [JSVal.num 42])]) =
      [Emission.broadcastExceptOrigin "like_updated"
        (JSVal.obj [("postId", JSVal.str "p1"),
          ("likes", JSVal.arr [JSVal.num 42])])] ∧
    serverHandle "like_updated_from_client"
        (JSVal.obj [("postId", JSVal.num 7), ("likes", JSVal.arr [])]) =
      [Emission.broadcastExceptOrigin "like_updated"
        (JSVal.obj [("postId", JSVal.num 7), ("likes", JSVal.arr [])])] :=
  ⟨rfl, rfl⟩

/-- C4 amended: a `like_updated_from_client` event is broadcast exactly when
its payload is truthy, its `postId` field is truthy (any type), and its
`likes` field is an array (element types unchecked); when broadcast, the
single emission is `like_updated` with the unmodified payload. -/
theorem like_broadcast_iff_truthy_validation (p : JSVal) :
    (serverHandle "like_updated_from_client" p ≠ [] ↔
      truthy p = true ∧ truthy (getField p "postId") = true ∧
        isArray (getField p "likes") = true) ∧
    ∀ em ∈ serverHandle "like_updated_from_client" p,
      em = Emission.broadcastExceptOrigin "like_updated" p := by
  constructor
  · constructor
    · intro hne
      rw [serverHandle_like] at hne
      by_cases h : (truthy p && truthy (getField p "postId")
          && isArray (getField p "likes")) = true
      · simpa [Bool.and_assoc, Bool.and_eq_true] using h
      · rw [if_neg h] at hne
        exact absurd rfl hne
    · intro h
      rw [serverHandle_like,
        if_pos (by simp [Bool.and_eq_true, h.1, h.2.1, h.2.2])]
      simp
  · intro em hem
    rw [serverHandle_like] at hem
    by_cases h : (truthy p && truthy (getField p "postId")
        && isArray (getField p "likes")) = true
    · rw [if_pos h] at hem
      simpa using hem
    · rw [if_neg h] at hem
      cases hem

/-- C9: a `hello` event yields exactly one delivery — the unicast
`helloFromServer` reply to the origin connection — and every delivery it
causes is addressed to the origin, so no other registered connection
receives anything. -/
theorem hello_unicast_only (conns : List String) (origin : String)
    (msg : JSVal) :
    deliveries conns origin "hello" msg =
      [Delivery.mk origin "helloFromServer"
        (JSVal.str ("Server received your message: " ++ jsToString msg))] ∧
    ∀ d ∈ deliveries conns origin "hello" msg, d.recipient = origin := by
  have h : deliveries conns origin "hello" msg =
      [Delivery.mk origin "helloFromServer"
        (JSVal.str ("Server received your message: " ++ jsToString msg))] := by
    simp [deliveries, serverHandle_hello]
  refine ⟨h, ?_⟩
  rw [h]
  intro d hd
  simp only [List.mem_singleton] at hd
  rw [hd]

theorem hello_unicast_only_witness :
    deliveries ["A", "B"] "A" "hello" (JSVal.str "hi") =
      [Delivery.mk "A" "helloFromServer"
        (JSVal.str ("Server received your message: " ++
          jsToString (JSVal.str "hi")))] ∧
    ∀ d ∈ deliveries ["A", "B"] "A" "hello" (JSVal.str "hi"),
      d.recipient = "A" :=
  hello_unicast_only ["A", "B"] "A" (JSVal.str "hi")

/-- C10: the empty string is falsy in JavaScript, so a payload whose
`postId` field is the empty string fails the truthiness validation of both
`like_updated_from_client` and `new_comment_from_client` and is never
broadcast, although its `postId` is present and of string type. -/
theorem empty_postId_not_broadcast (p : JSVal)
    (h : getField p "postId" = JSVal.str "") :
    serverHandle "like_updated_from_client" p = [] ∧
    serverHandle "new_comment_from_client" p = [] := by
  have ht : truthy (getField p "postId") = false := by rw [h]; rfl
  constructor
  · rw [serverHandle_like]
    simp [ht]
  · rw [serverHandle_newComment]
    simp [ht]

theorem empty_postId_not_broadcast_witness :
    serverHandle "like_updated_from_client"
        (JSVal.obj [("postId", JSVal.str ""), ("likes", JSVal.arr []),
          ("comment", JSVal.obj [("_id", JSVal.str "c1")])]) = [] ∧
    serverHandle "new_comment_from_client"
        (JSVal.obj [("postId", JSVal.str ""), ("likes", JSVal.arr []),
          ("comment", JSVal.obj [("_id", JSVal.str "c1")])]) = [] :=
  empty_postId_not_broadcast _ rfl

theorem like_broadcast_iff_truthy_validation_witness :
    (serverHandle "like_updated_from_client"
        (JSVal.obj [("postId", JSVal.str "p1"), ("likes", JSVal.arr [])]) ≠
      [] ↔
      truthy (JSVal.obj [("postId", JSVal.str "p1"),
          ("likes", JSVal.arr [])]) = true ∧
      truthy (getField (JSVal.obj [("postId", JSVal.str "p1"),
          ("likes", JSVal.arr [])]) "postId") = true ∧
      isArray (getField (JSVal.obj [("postId", JSVal.str "p1"),
          ("likes", JSVal.arr [])]) "likes") = true) ∧
    ∀ em ∈ serverHandle "like_updated_from_client"
        (JSVal.obj [("postId", JSVal.str "p1"), ("likes", JSVal.arr [])]),
      em = Emission.broadcastExceptOrigin "like_updated"
        (JSVal.obj [("postId", JSVal.str "p1"), ("likes", JSVal.arr [])]) :=
  like_broadcast_iff_truthy_validation _

/-- C5: applying the same `post_created` event (by `handleNewPost`) or the
same `comment_added` event (by `handleCommentAdded`) twice yields the same
state as applying it once, and an incoming post or comment whose id already
occurs in the list leaves the list unchanged. -/
theorem reconciler_idempotent :
    (∀ (newPost : PopulatedPost) (l : List PopulatedPost),
      handleNewPost newPost (handleNewPost newPost l) =
        handleNewPost newPost l) ∧
    (∀ (newPost : PopulatedPost) (l : List PopulatedPost),
      (∃ q ∈ l, q._id = newPost._id) → handleNewPost newPost l = l) ∧
    (∀ (pid : String) (d : CommentAddedData) (cs : List PopulatedComment),
      handleCommentAdded pid d (handleCommentAdded pid d cs) =
        handleCommentAdded pid d cs) ∧
    (∀ (pid : String) (d : CommentAddedData) (cs : List PopulatedComment),
      (∃ c ∈ cs, c._id = d.comment._id) →
        handleCommentAdded pid d cs = cs) := by
  refine ⟨?_, ?_, ?_, ?_⟩
  · intro p l
    by_cases h : l.any (fun post => post._id == p._id) = true
    · simp only [handleNewPost, h, if_true]
    · have h2 : handleNewPost p l = p :: l := by
        simp only [handleNewPost]
        rw [if_neg h]
      rw [h2]
      simp only [handleNewPost, List.any_cons, beq_self_eq_true,
        Bool.true_or, if_true]
  · intro p l hex
    obtain ⟨q, hq, hid⟩ := hex
    have h : l.any (fun post => post._id == p._id) = true := by
      rw [List.any_eq_true]
      exact ⟨q, hq, by simp [hid]⟩
    simp only [handleNewPost, h, if_true]
  · intro pid d cs
    by_cases hpid : d.postId = pid
    · by_cases h : cs.any (fun c => c._id == d.comment._id) = true
      · simp only [handleCommentAdded, hpid, if_true, h]
      · have h2 : handleCommentAdded pid d cs = d.comment :: cs := by
          simp only [handleCommentAdded, hpid, if_true]
          rw [if_neg h]
        rw [h2]
        simp only [handleCommentAdded, hpid, if_true, List.any_cons,
          beq_self_eq_true, Bool.true_or]
    · simp only [handleCommentAdded, hpid, if_false]
  · intro pid d cs hex
    obtain ⟨c, hc, hid⟩ := hex
    have h : cs.any (fun c => c._id == d.comment._id) = true := by
      rw [List.any_eq_true]
      exact ⟨c, hc, by simp [hid]⟩
    by_cases hpid : d.postId = pid
    · simp only [handleCommentAdded, hpid, if_true, h]
    · simp only [handleCommentAdded]
      rw [if_neg hpid]

theorem reconciler_idempotent_witness :
    (∃ q ∈ [PopulatedPost.mk "p1" (PopulatedUser.mk "u1" "alice" none)
        "hi" none [] [] "t1"],
      q._id = (PopulatedPost.mk "p1" (PopulatedUser.mk "u1" "alice" none)
        "hi" none [] [] "t1")._id) ∧
    handleNewPost
        (PopulatedPost.mk "p1" (PopulatedUser.mk "u1" "alice" none)
          "hi" none [] [] "t1")
        [PopulatedPost.mk "p1" (PopulatedUser.mk "u1" "alice" none)
          "hi" none [] [] "t1"] =
      [PopulatedPost.mk "p1" (PopulatedUser.mk "u1" "alice" none)
        "hi" none [] [] "t1"] :=
  ⟨⟨PopulatedPost.mk "p1" (PopulatedUser.mk "u1" "alice" none)
      "hi" none [] [] "t1", List.mem_cons_self _ _, rfl⟩,
    reconciler_idempotent.2.1 _ _
      ⟨PopulatedPost.mk "p1" (PopulatedUser.mk "u1" "alice" none)
        "hi" none [] [] "t1", List.mem_cons_self _ _, rfl⟩⟩

/-- C6: on a `like_updated` event whose `postId` equals the item's post id,
the like count becomes the length of the received likes list and the own
like flag becomes membership of the current (nonempty) user id in that
list; an event for a different post id leaves the state unchanged. -/
theorem handleLikeUpdate_spec (pid u : String) (st : LikeState)
    (d : LikeUpdatedData) (hu : u ≠ "") :
    (d.postId = pid →
      (handleLikeUpdate pid (some u) d st).likeCount = d.likes.length ∧
      ((handleLikeUpdate pid (some u) d st).isLiked = true ↔
        u ∈ d.likes)) ∧
    (d.postId ≠ pid → handleLikeUpdate pid (some u) d st = st) := by
  constructor
  · intro h
    unfold handleLikeUpdate
    rw [if_pos h]
    refine ⟨rfl, ?_⟩
    show (if u ≠ "" then d.likes.contains u else false) = true ↔ u ∈ d.likes
    rw [if_pos hu]
    show List.elem u d.likes = true ↔ u ∈ d.likes
    exact List.elem_iff
  · intro h
    unfold handleLikeUpdate
    rw [if_neg h]

theorem handleLikeUpdate_spec_witness :
    ((LikeUpdatedData.mk "p1" ["u1", "u2"]).postId = "p1" →
      (handleLikeUpdate "p1" (some "u1")
          (LikeUpdatedData.mk "p1" ["u1", "u2"])
          (LikeState.mk 0 false)).likeCount =
        (LikeUpdatedData.mk "p1" ["u1", "u2"]).likes.length ∧
      ((handleLikeUpdate "p1" (some "u1")
          (LikeUpdatedData.mk "p1" ["u1", "u2"])
          (LikeState.mk 0 false)).isLiked = true ↔
        "u1" ∈ (LikeUpdatedData.mk "p1" ["u1", "u2"]).likes)) ∧
    ((LikeUpdatedData.mk "p1" ["u1", "u2"]).postId ≠ "p1" →
      handleLikeUpdate "p1" (some "u1")
          (LikeUpdatedData.mk "p1" ["u1", "u2"])
          (LikeState.mk 0 false) =
        LikeState.mk 0 false) :=
  handleLikeUpdate_spec "p1" "u1" (LikeState.mk 0 false)
    (LikeUpdatedData.mk "p1" ["u1", "u2"]) (by decide)

/-- C7: on a `post_deleted` event with nonempty `postId`, the resulting feed
is an order-preserving sublist of the previous one containing exactly the
posts whose id differs from `postId`; when no post matches, the list is
unchanged. -/
theorem handlePostDeleted_spec (d : PostDeletedData)
    (prev : List PopulatedPost) (h : d.postId ≠ "") :
    (handlePostDeleted (some d) prev).Sublist prev ∧
    (∀ p : PopulatedPost,
      p ∈ handlePostDeleted (some d) prev ↔
        p ∈ prev ∧ p._id ≠ d.postId) ∧
    ((∀ p ∈ prev, p._id ≠ d.postId) →
      handlePostDeleted (some d) prev = prev) := by
  have hd : handlePostDeleted (some d) prev =
      prev.filter (fun post => post._id != d.postId) := by
    simp only [handlePostDeleted]
    rw [if_pos h]
  rw [hd]
  refine ⟨List.filter_sublist prev, ?_, ?_⟩
  · intro p
    simp [List.mem_filter]
  · intro hall
    rw [List.filter_eq_self]
    intro p hp
    simpa using hall p hp

theorem handlePostDeleted_spec_witness :
    (handlePostDeleted (some (PostDeletedData.mk "p2"))
        [PopulatedPost.mk "p1" (PopulatedUser.mk "u1" "alice" none)
            "hi" none [] [] "t1",
          PopulatedPost.mk "p2" (PopulatedUser.mk "u2" "bob" none)
            "yo" none [] [] "t2"]).Sublist
      [PopulatedPost.mk "p1" (PopulatedUser.mk "u1" "alice" none)
          "hi" none [] [] "t1",
        PopulatedPost.mk "p2" (PopulatedUser.mk "u2" "bob" none)
          "yo" none [] [] "t2"] ∧
    (∀ p : PopulatedPost,
      p ∈ handlePostDeleted (some (PostDeletedData.mk "p2"))
          [PopulatedPost.mk "p1" (PopulatedUser.mk "u1" "alice" none)
              "hi" none [] [] "t1",
            PopulatedPost.mk "p2" (PopulatedUser.mk "u2" "bob" none)
              "yo" none [] [] "t2"] ↔
        p ∈ [PopulatedPost.mk "p1" (PopulatedUser.mk "u1" "alice" none)
              "hi" none [] [] "t1",
            PopulatedPost.mk "p2" (PopulatedUser.mk "u2" "bob" none)
              "yo" none [] [] "t2"] ∧
          p._id ≠ (PostDeletedData.mk "p2").postId) ∧
    ((∀ p ∈ [PopulatedPost.mk "p1" (PopulatedUser.mk "u1" "alice" none)
            "hi" none [] [] "t1",
          PopulatedPost.mk "p2" (PopulatedUser.mk "u2" "bob" none)
            "yo" none [] [] "t2"],
        p._id ≠ (PostDeletedData.mk "p2").postId) →
      handlePostDeleted (some (PostDeletedData.mk "p2"))
          [PopulatedPost.mk "p1" (PopulatedUser.mk "u1" "alice" none)
              "hi" none [] [] "t1",
            PopulatedPost.mk "p2" (PopulatedUser.mk "u2" "bob" none)
              "yo" none [] [] "t2"] =
        [PopulatedPost.mk "p1" (PopulatedUser.mk "u1" "alice" none)
            "hi" none [] [] "t1",
          PopulatedPost.mk "p2" (PopulatedUser.mk "u2" "bob" none)
            "yo" none [] [] "t2"]) :=
  handlePostDeleted_spec (PostDeletedData.mk "p2") _ (by decide)

theorem logFor_map_mk (l : List String) (b e : String) (pl : JSVal) :
    logFor b (l.map (fun c => Delivery.mk c e pl)) =
      (l.filter (fun c => c = b)).map (fun c => Delivery.mk c e pl) := by
  induction l with
  | nil => rfl
  | cons x t ih =>
    by_cases hx : x = b
    · subst hx
      unfold logFor at *
      rw [List.map_cons, List.filter_cons_of_pos (by simp),
        List.filter_cons_of_pos (by simp), List.map_cons, ih]
    · unfold logFor at *
      rw [List.map_cons, List.filter_cons_of_neg (by simp [hx]),
        List.filter_cons_of_neg (by simp [hx]), ih]

theorem logFor_broadcastExcept (conns : List String) (a b e : String)
    (pl : JSVal) (hnd : conns.Nodup) (hb : b ∈ conns) (hne : b ≠ a) :
    logFor b (broadcastExcept conns a e pl) = [Delivery.mk b e pl] := by
  unfold broadcastExcept
  rw [logFor_map_mk]
  have h1 : (conns.filter (fun c => c ≠ a)).Nodup := hnd.filter _
  have h2 : b ∈ conns.filter (fun c => c ≠ a) := by
    rw [List.mem_filter]
    exact ⟨hb, by simpa using hne⟩
  rw [filter_eq_singleton _ b h1 h2]
  rfl

theorem logFor_runTrace_append (conns : List String) (b : String)
    (t1 t2 : List Inbound) :
    logFor b (runTrace conns (t1 ++ t2)) =
      logFor b (runTrace conns t1) ++ logFor b (runTrace conns t2) := by
  unfold runTrace logFor
  rw [List.flatMap_append, List.filter_append]

/-- C8: per sender-receiver FIFO — for a fixed recipient `b` and two valid
broadcast events `x` then `y` raised by the same origin `a` anywhere in the
inbound trace, the delivery log that `b` observes contains the envelope of
`x` strictly before the envelope of `y`; the delivery log is the
concatenation of each inbound event's fan-out in processing order. -/
theorem fifo_per_sender_receiver (conns : List String) (a b : String)
    (hnd : conns.Nodup) (hb : b ∈ conns) (hne : b ≠ a)
    (x y : Inbound) (hxo : x.origin = a) (hyo : y.origin = a)
    (ex : String) (px : JSVal)
    (hx : serverHandle x.event x.payload =
      [Emission.broadcastExceptOrigin ex px])
    (ey : String) (py : JSVal)
    (hy : serverHandle y.event y.payload =
      [Emission.broadcastExceptOrigin ey py])
    (t1 t2 t3 : List Inbound) :
    logFor b (runTrace conns (t1 ++ [x] ++ t2 ++ [y] ++ t3)) =
      logFor b (runTrace conns t1) ++ [Delivery.mk b ex px] ++
        logFor b (runTrace conns t2) ++ [Delivery.mk b ey py] ++
        logFor b (runTrace conns t3) := by
  have hxd : logFor b (runTrace conns [x]) = [Delivery.mk b ex px] := by
    unfold runTrace
    rw [List.flatMap_cons, List.flatMap_nil, List.append_nil, hxo,
      deliveries_broadcast conns a x.event x.payload ex px hx]
    exact logFor_broadcastExcept conns a b ex px hnd hb hne
  have hyd : logFor b (runTrace conns [y]) = [Delivery.mk b ey py] := by
    unfold runTrace
    rw [List.flatMap_cons, List.flatMap_nil, List.append_nil, hyo,
      deliveries_broadcast conns a y.event y.payload ey py hy]
    exact logFor_broadcastExcept conns a b ey py hnd hb hne
  rw [logFor_runTrace_append conns b (t1 ++ [x] ++ t2 ++ [y]) t3,
    logFor_runTrace_append conns b (t1 ++ [x] ++ t2) [y],
    logFor_runTrace_append conns b (t1 ++ [x]) t2,
    logFor_runTrace_append conns b t1 [x], hxd, hyd]

theorem fifo_per_sender_receiver_witness :
    logFor "B" (runTrace ["A", "B"]
        ([] ++ [Inbound.mk "A" "like_updated_from_client"
            (JSVal.obj [("postId", JSVal.str "p9"),
              ("likes", JSVal.arr [])])] ++ [] ++
          [Inbound.mk "A" "new_post_from_client"
            (JSVal.obj [("_id", JSVal.str "post9"),
              ("author", JSVal.obj [("_id", JSVal.str "u1")])])] ++ [])) =
      logFor "B" (runTrace ["A", "B"] []) ++
        [Delivery.mk "B" "like_updated"
          (JSVal.obj [("postId", JSVal.str "p9"),
            ("likes", JSVal.arr [])])] ++
        logFor "B" (runTrace ["A", "B"] []) ++
        [Delivery.mk "B" "post_created"
          (JSVal.obj [("_id", JSVal.str "post9"),
            ("author", JSVal.obj [("_id", JSVal.str "u1")])])] ++
        logFor "B" (runTrace ["A", "B"] []) :=
  fifo_per_sender_receiver ["A", "B"] "A" "B" (by decide) (by decide)
    (by decide)
    (Inbound.mk "A" "like_updated_from_client"
      (JSVal.obj [("postId", JSVal.str "p9"), ("likes", JSVal.arr [])]))
    (Inbound.mk "A" "new_post_from_client"
      (JSVal.obj [("_id", JSVal.str "post9"),
        ("author", JSVal.obj [("_id", JSVal.str "u1")])]))
    rfl rfl "like_updated" _ rfl "post_created" _ rfl [] [] []
